import Mathlib

/-!
Shallow embedding of the analytics pipeline of the CrewAI Product
Intelligence System (src/tools.py): seasonality analysis, ordinary
least-squares trend analysis, the strategic product classifier, and the
string-channel error handling of the three tool entry points
(SeasonalityAnalysisTool._run, TrendAnalysisTool._run,
ProductClassificationTool._run).

Numeric data is modelled exactly over the rationals; the IEEE artefacts
the pipeline can actually produce (NaN and signed infinities, from
division by zero and from statistics that pandas/sklearn leave undefined
on short inputs) are modelled by the type FVal below.
-/

namespace PIS

/-- Floating-point value as produced by the pandas/numpy arithmetic of
the pipeline: a regular (here: rational) number, NaN, or a signed
infinity.  NaN and infinities arise only from division by zero, from the
sample standard deviation of fewer than two values, from the mean or
max/min of an empty series, and from sklearn's r2_score on fewer than
two samples. -/
inductive FVal where
  | num (q : ℚ)
  | nan
  | pinf
  | ninf
deriving DecidableEq, Repr

/-- IEEE addition on FVal. -/
def fadd : FVal → FVal → FVal
  | .num a, .num b => .num (a + b)
  | .nan, _ => .nan
  | _, .nan => .nan
  | .pinf, .ninf => .nan
  | .ninf, .pinf => .nan
  | .pinf, _ => .pinf
  | _, .pinf => .pinf
  | .ninf, _ => .ninf
  | _, .ninf => .ninf

/-- IEEE subtraction on FVal. -/
def fsub : FVal → FVal → FVal
  | .num a, .num b => .num (a - b)
  | .nan, _ => .nan
  | _, .nan => .nan
  | .pinf, .pinf => .nan
  | .ninf, .ninf => .nan
  | .pinf, _ => .pinf
  | .ninf, _ => .ninf
  | _, .pinf => .ninf
  | _, .ninf => .pinf

/-- IEEE multiplication on FVal (0 times an infinity is NaN). -/
def fmul : FVal → FVal → FVal
  | .num a, .num b => .num (a * b)
  | .nan, _ => .nan
  | _, .nan => .nan
  | .pinf, .pinf => .pinf
  | .pinf, .ninf => .ninf
  | .ninf, .pinf => .ninf
  | .ninf, .ninf => .pinf
  | .pinf, .num b => if b = 0 then .nan else if 0 < b then .pinf else .ninf
  | .num a, .pinf => if a = 0 then .nan else if 0 < a then .pinf else .ninf
  | .ninf, .num b => if b = 0 then .nan else if 0 < b then .ninf else .pinf
  | .num a, .ninf => if a = 0 then .nan else if 0 < a then .ninf else .pinf

/-- IEEE division on FVal: 0/0 is NaN, x/0 for nonzero x is a signed
infinity (numpy float semantics; the source never traps on division). -/
def fdiv : FVal → FVal → FVal
  | .num a, .num b =>
      if b = 0 then (if a = 0 then .nan else if 0 < a then .pinf else .ninf)
      else .num (a / b)
  | .nan, _ => .nan
  | _, .nan => .nan
  | .pinf, .pinf => .nan
  | .pinf, .ninf => .nan
  | .ninf, .pinf => .nan
  | .ninf, .ninf => .nan
  | .pinf, .num b => if 0 ≤ b then .pinf else .ninf
  | .ninf, .num b => if 0 ≤ b then .ninf else .pinf
  | .num _, .pinf => .num 0
  | .num _, .ninf => .num 0

/-- Strict comparison x > c of an FVal against a rational literal; any
comparison with NaN is false (Python float semantics). -/
def fgtq : FVal → ℚ → Bool
  | .num a, c => decide (c < a)
  | .pinf, _ => true
  | .ninf, _ => false
  | .nan, _ => false

/-- Strict comparison x < c of an FVal against a rational literal; any
comparison with NaN is false. -/
def fltq : FVal → ℚ → Bool
  | .num a, c => decide (a < c)
  | .pinf, _ => false
  | .ninf, _ => true
  | .nan, _ => false

/-- Strict comparison between two FVals (false whenever NaN is involved). -/
def fltF : FVal → FVal → Bool
  | .num a, .num b => decide (a < b)
  | .nan, _ => false
  | _, .nan => false
  | .pinf, .pinf => false
  | .ninf, .ninf => false
  | .ninf, _ => true
  | _, .pinf => true
  | .pinf, _ => false
  | _, .ninf => false

/-- Python's two-argument min(c, x): returns x exactly when x < c,
otherwise c (so min(c, NaN) = c). -/
def fminPy (c x : FVal) : FVal :=
  if fltF x c then x else c

/-- The seven strategic categories of ProductClassificationTool. -/
inductive Category where
  | RISING_STAR
  | FADING_OUT
  | SEASONAL_HERO
  | EVERGREEN
  | RANDOM_ERRATIC
  | DECLINING_SEASONAL
  | STABLE
deriving DecidableEq, Repr

/-- The ordered classification chain of ProductClassificationTool._run
(src/tools.py lines 204-232), translated branch by branch: slope is the
regression coefficient (a regular number for the numeric inputs we
model), r2 the coefficient of determination, score the seasonality
score (both possibly NaN), iss the boolean is_seasonal.  Returns the
category together with the confidence. -/
def classifyCore (slope : ℚ) (r2 score : FVal) (iss : Bool) : Category × FVal :=
  if decide (slope > 1/2) && fgtq r2 (1/2) then
    (.RISING_STAR, fminPy (.num (95/100)) (fadd r2 (.num (slope / 2))))
  else if decide (slope < -(1/2)) && fgtq r2 (1/2) then
    (.FADING_OUT, fminPy (.num (95/100)) (fadd r2 (.num (|slope| / 2))))
  else if iss && decide (|slope| < 3/10) then
    (.SEASONAL_HERO, fminPy (.num (9/10)) score)
  else if !iss && decide (|slope| < 3/10) then
    (.EVERGREEN, fsub (.num (8/10)) score)
  else if fltq r2 (3/10) && !iss then
    (.RANDOM_ERRATIC, .num (6/10))
  else if iss && decide (slope < -(2/10)) then
    (.DECLINING_SEASONAL, fminPy (.num (85/100)) (fadd score (.num (|slope| / 3))))
  else
    (.STABLE, .num (1/2))

/-- One normalized row of the loaded CSV table, as the tools see it
after column aliasing: the product name, an ordinal timestamp (used
only for sorting), the calendar month extracted from the date
(pandas dt.month), and the sales value. -/
structure Row where
  product : String
  date : ℕ
  month : ℕ
  value : ℚ
deriving DecidableEq, Repr

/-- A Python exception captured by the blanket handlers of the three
tool entry points; only its message survives into the returned string. -/
structure PyErr where
  msg : String
deriving DecidableEq, Repr

/-- Stable insertion into a list: a is placed before the first element
b with le a b. -/
def insertBy {α : Type} (le : α → α → Bool) (a : α) : List α → List α
  | [] => [a]
  | b :: l => if le a b then a :: b :: l else b :: insertBy le a l

/-- Stable insertion sort; elements that compare equal keep their
original relative order, matching pandas' tie-breaking by position. -/
def sortBy {α : Type} (le : α → α → Bool) : List α → List α
  | [] => []
  | a :: l => insertBy le a (sortBy le l)

/-- Filter the table to the rows of one product
(data[data[product_col] == product_name]). -/
def productRows (tbl : List Row) (p : String) : List Row :=
  tbl.filter (fun r => r.product == p)

/-- The distinct calendar months present in the rows, ascending —
the group keys of groupby('Month'), which sorts keys. -/
def monthKeys (rows : List Row) : List ℕ :=
  sortBy (fun m n => decide (m ≤ n)) ((rows.map Row.month).dedup)

/-- Mean sales value of the rows falling in calendar month m. -/
def monthMean (rows : List Row) (m : ℕ) : ℚ :=
  let vs := (rows.filter (fun r => r.month == m)).map Row.value
  vs.sum / (vs.length : ℚ)

/-- groupby('Month')[sales_col].mean(): the per-month mean series,
indexed by ascending month. -/
def monthlyMeans (rows : List Row) : List (ℕ × ℚ) :=
  (monthKeys rows).map (fun m => (m, monthMean rows m))

/-- Mean of a rational list (0 on the empty list; the empty case is
routed through fmean below where pandas produces NaN). -/
def qmean (l : List ℚ) : ℚ := l.sum / (l.length : ℚ)

/-- Maximum of a rational list, 0 on the empty list. -/
def qmaxD : List ℚ → ℚ
  | [] => 0
  | a :: l => l.foldl max a

/-- Minimum of a rational list, 0 on the empty list. -/
def qminD : List ℚ → ℚ
  | [] => 0
  | a :: l => l.foldl min a

/-- Sample variance with denominator n-1 (pandas ddof=1); only used
through fsvar, which guards the n < 2 case. -/
def qsvar (l : List ℚ) : ℚ :=
  ((l.map (fun x => (x - qmean l) ^ 2)).sum) / ((l.length : ℚ) - 1)

/-- pandas Series.mean(): NaN on an empty series. -/
def fmean (l : List ℚ) : FVal := if l.isEmpty then .nan else .num (qmean l)

/-- pandas Series.max(): NaN on an empty series. -/
def fmaxS (l : List ℚ) : FVal := if l.isEmpty then .nan else .num (qmaxD l)

/-- pandas Series.min(): NaN on an empty series. -/
def fminS (l : List ℚ) : FVal := if l.isEmpty then .nan else .num (qminD l)

/-- Square of pandas Series.std() (ddof=1): NaN on fewer than two
values, the sample variance otherwise.  The standard deviation itself
is an irrational square root; its square determines it (it is the
nonnegative root) and is NaN exactly when the deviation is. -/
def fsvar (l : List ℚ) : FVal := if l.length < 2 then .nan else .num (qsvar l)

/-- The comparison pandas nlargest with keep='first' effectively
inserts by on the ascending-month mean series: descending by mean,
position (= ascending month) on ties. -/
def peakLe (p q : ℕ × ℚ) : Bool := decide (q.2 ≤ p.2)

/-- The comparison pandas nsmallest with keep='first' effectively
inserts by: ascending by mean, position on ties. -/
def lowLe (p q : ℕ × ℚ) : Bool := decide (p.2 ≤ q.2)

/-- Structured result of SeasonalityAnalysisTool._run before
formatting.  strengthSq is the square of seasonal_strength
(= std/mean); it is kept squared so that all arithmetic stays rational,
and it is NaN exactly when seasonal_strength is. -/
structure SeasonOut where
  seasonality_score : FVal
  strengthSq : FVal
  is_seasonal : Bool
  peak_months : List ℕ
  low_months : List ℕ
deriving DecidableEq, Repr

/-- The seasonality computation of SeasonalityAnalysisTool._run
(src/tools.py lines 36-50) on the filtered product rows: monthly means,
seasonal strength (squared), seasonality score, the seasonal flag, and
the three peak / low months (pandas nlargest / nsmallest with
keep='first', i.e. descending / ascending by mean with ties kept in
ascending month order). -/
def seasonAnalyze (rows : List Row) : SeasonOut :=
  let mm := monthlyMeans rows
  let vals := mm.map Prod.snd
  let mean := fmean vals
  let score := fdiv (fsub (fmaxS vals) (fminS vals)) mean
  { seasonality_score := score
    strengthSq := fdiv (fsvar vals) (fmul mean mean)
    is_seasonal := fgtq score (3/10)
    peak_months := ((sortBy peakLe mm).take 3).map Prod.fst
    low_months := ((sortBy lowLe mm).take 3).map Prod.fst }

/-- Body of the try block of SeasonalityAnalysisTool._run: the load
step (read_csv, column aliasing, date parsing) either fails with a
Python exception or yields the table; the analysis itself raises
nothing. -/
def seasonBody (load : Except PyErr (List Row)) (p : String) : Except PyErr SeasonOut :=
  match load with
  | .error e => .error e
  | .ok tbl => .ok (seasonAnalyze (productRows tbl p))

/-- Rendering of an FVal the way Python string formatting shows it. -/
def fvalStr : FVal → String
  | .num q => toString q
  | .nan => "nan"
  | .pinf => "inf"
  | .ninf => "-inf"

/-- The normal-output string of the seasonality tool (the report
skeleton; numeric fields appear via fvalStr). -/
def seasonFormat (p : String) (o : SeasonOut) : String :=
  "SEASONALITY ANALYSIS FOR " ++ p ++ ": score " ++ fvalStr o.seasonality_score
    ++ ", seasonal " ++ (if o.is_seasonal then "YES" else "NO")
    ++ ", peak months " ++ toString o.peak_months
    ++ ", low months " ++ toString o.low_months

/-- SeasonalityAnalysisTool._run: the try/except wrapper returning the
report string on success and an error-prefixed string on any exception. -/
def runSeason (load : Except PyErr (List Row)) (p : String) : String :=
  match seasonBody load p with
  | .ok o => seasonFormat p o
  | .error e => "Error in seasonality analysis: " ++ e.msg

/-- The message of the ValueError raised by LinearRegression.fit on an
empty design matrix. -/
def emptyFitMsg : String :=
  "Found array with 0 sample(s) (shape=(0, 1)) while a minimum of 1 is required by LinearRegression."

/-- sklearn LinearRegression fit and score against the zero-based index
0..n-1: fit raises ValueError on zero samples; the slope is the
least-squares coefficient (0 for a single sample, where the centered
index is identically zero and lstsq returns the minimum-norm solution);
the score implements sklearn r2_score, which returns NaN on fewer than
two samples and treats a zero total sum of squares as 1 when the
residual sum is also zero and as 0 otherwise. -/
def olsFit (ys : List ℚ) : Except PyErr (ℚ × FVal) :=
  if ys.length = 0 then .error ⟨emptyFitMsg⟩
  else
    let n : ℚ := ys.length
    let xs : List ℚ := (List.range ys.length).map (Nat.cast : ℕ → ℚ)
    let xm : ℚ := xs.sum / n
    let ym : ℚ := ys.sum / n
    let sxy : ℚ := ((xs.zip ys).map (fun p => (p.1 - xm) * (p.2 - ym))).sum
    let sxx : ℚ := (xs.map (fun x => (x - xm) ^ 2)).sum
    let slope : ℚ := if sxx = 0 then 0 else sxy / sxx
    let intercept : ℚ := ym - slope * xm
    let ssres : ℚ := ((xs.zip ys).map (fun p => (p.2 - (intercept + slope * p.1)) ^ 2)).sum
    let sstot : ℚ := (ys.map (fun y => (y - ym) ^ 2)).sum
    let r2 : FVal :=
      if ys.length < 2 then .nan
      else if sstot = 0 then (if ssres = 0 then .num 1 else .num 0)
      else .num (1 - ssres / sstot)
    .ok (slope, r2)

/-- Structured result of TrendAnalysisTool._run before formatting. -/
structure TrendOut where
  slope : ℚ
  r_squared : FVal
  recent_slope : ℚ
  recent_r_squared : FVal
  total_change_pct : ℚ
  strength : String
  direction : String
deriving DecidableEq, Repr

/-- The trend computation of TrendAnalysisTool._run (src/tools.py lines
95-139) on the date-sorted value series: overall OLS fit, percentage
change from first to last value with the zero-baseline guard, the
recent fit over the trailing 12 periods (falling back to the overall
fit below 12 points), and the strength / direction labels.  The headD /
getLastD defaults are never reached: iloc would only fault on an empty
series, which already failed inside olsFit. -/
def trendAnalyze (ys : List ℚ) : Except PyErr TrendOut := do
  let (slope, r2) ← olsFit ys
  let first := ys.headD 0
  let last := ys.getLastD 0
  let tcp := if first > 0 then ((last - first) / first) * 100 else 0
  let (rslope, rr2) ←
    if 12 ≤ ys.length then olsFit (ys.drop (ys.length - 12)) else pure (slope, r2)
  let strength :=
    if fgtq r2 (7/10) then "STRONG" else if fgtq r2 (4/10) then "MODERATE" else "WEAK"
  let direction :=
    if slope > 1/2 then "RISING" else if slope < -(1/2) then "DECLINING" else "STABLE"
  pure { slope := slope, r_squared := r2, recent_slope := rslope, recent_r_squared := rr2,
         total_change_pct := tcp, strength := strength, direction := direction }

/-- The product's value series sorted ascending by date
(sort_values('Date') followed by taking the sales column). -/
def sortedVals (rows : List Row) : List ℚ :=
  (sortBy (fun r s => decide (r.date ≤ s.date)) rows).map Row.value

/-- Body of the try block of TrendAnalysisTool._run. -/
def trendBody (load : Except PyErr (List Row)) (p : String) : Except PyErr TrendOut :=
  match load with
  | .error e => .error e
  | .ok tbl => trendAnalyze (sortedVals (productRows tbl p))

/-- The normal-output string of the trend tool. -/
def trendFormat (p : String) (o : TrendOut) : String :=
  "TREND ANALYSIS FOR " ++ p ++ ": slope " ++ toString o.slope
    ++ ", r2 " ++ fvalStr o.r_squared
    ++ ", recent slope " ++ toString o.recent_slope
    ++ ", recent r2 " ++ fvalStr o.recent_r_squared
    ++ ", total change pct " ++ toString o.total_change_pct
    ++ ", strength " ++ o.strength ++ ", direction " ++ o.direction

/-- TrendAnalysisTool._run: try/except wrapper over the trend body. -/
def runTrend (load : Except PyErr (List Row)) (p : String) : String :=
  match trendBody load p with
  | .ok o => trendFormat p o
  | .error e => "Error in trend analysis: " ++ e.msg

/-- The classification computation of ProductClassificationTool._run:
recompute the overall OLS fit and the seasonality score on the product
rows, derive is_seasonal, and run the decision chain. -/
def classifyAnalyze (rows : List Row) : Except PyErr (Category × FVal) := do
  let (slope, r2) ← olsFit (sortedVals rows)
  let vals := (monthlyMeans rows).map Prod.snd
  let score := fdiv (fsub (fmaxS vals) (fminS vals)) (fmean vals)
  pure (classifyCore slope r2 score (fgtq score (3/10)))

/-- Body of the try block of ProductClassificationTool._run. -/
def classifyBody (load : Except PyErr (List Row)) (p : String) :
    Except PyErr (Category × FVal) :=
  match load with
  | .error e => .error e
  | .ok tbl => classifyAnalyze (productRows tbl p)

/-- The normal-output string of the classification tool. -/
def classifyFormat (p : String) (c : Category × FVal) : String :=
  "PRODUCT CLASSIFICATION FOR " ++ p ++ ": " ++ toString (repr c.1)
    ++ ", confidence " ++ fvalStr c.2

/-- ProductClassificationTool._run: try/except wrapper over the
classification body. -/
def runClassify (load : Except PyErr (List Row)) (p : String) : String :=
  match classifyBody load p with
  | .ok c => classifyFormat p c
  | .error e => "Error in product classification: " ++ e.msg

/-- The slope component computed by olsFit on a nonempty series
(projection of the fit, for stating theorems). -/
def olsSlope (ys : List ℚ) : ℚ :=
  let n : ℚ := ys.length
  let xs : List ℚ := (List.range ys.length).map (Nat.cast : ℕ → ℚ)
  let xm : ℚ := xs.sum / n
  let ym : ℚ := ys.sum / n
  let sxy : ℚ := ((xs.zip ys).map (fun p => (p.1 - xm) * (p.2 - ym))).sum
  let sxx : ℚ := (xs.map (fun x => (x - xm) ^ 2)).sum
  if sxx = 0 then 0 else sxy / sxx

/-- The r-squared component computed by olsFit on a nonempty series
(projection of the fit, for stating theorems). -/
def olsR2 (ys : List ℚ) : FVal :=
  let n : ℚ := ys.length
  let xs : List ℚ := (List.range ys.length).map (Nat.cast : ℕ → ℚ)
  let xm : ℚ := xs.sum / n
  let ym : ℚ := ys.sum / n
  let sxy : ℚ := ((xs.zip ys).map (fun p => (p.1 - xm) * (p.2 - ym))).sum
  let sxx : ℚ := (xs.map (fun x => (x - xm) ^ 2)).sum
  let slope : ℚ := if sxx = 0 then 0 else sxy / sxx
  let intercept : ℚ := ym - slope * xm
  let ssres : ℚ := ((xs.zip ys).map (fun p => (p.2 - (intercept + slope * p.1)) ^ 2)).sum
  let sstot : ℚ := (ys.map (fun y => (y - ym) ^ 2)).sum
  if ys.length < 2 then .nan
  else if sstot = 0 then (if ssres = 0 then .num 1 else .num 0)
  else .num (1 - ssres / sstot)

/-- The list of monthly mean values of a product's rows. -/
def mmVals (rows : List Row) : List ℚ := (monthlyMeans rows).map Prod.snd

/-- Peak ordering on (month, mean) pairs: strictly larger mean first,
ties by strictly ascending month — the order pandas nlargest with
keep='first' realizes on the month-indexed mean series. -/
def peakRel (p q : ℕ × ℚ) : Prop := q.2 < p.2 ∨ (p.2 = q.2 ∧ p.1 < q.1)

/-- Low ordering on (month, mean) pairs: strictly smaller mean first,
ties by strictly ascending month — the order pandas nsmallest with
keep='first' realizes. -/
def lowRel (p q : ℕ × ℚ) : Prop := p.2 < q.2 ∨ (p.2 = q.2 ∧ p.1 < q.1)

/-- Example table whose only product has all-zero sales in two distinct
months: every monthly mean is 0, so the mean of monthly means is 0. -/
def allZeroTbl : List Row := [⟨"A", 0, 1, 0⟩, ⟨"A", 1, 2, 0⟩]

/-- Example table that has rows only for product A, used to probe the
behavior on a product with zero matching rows. -/
def onlyATbl : List Row := [⟨"A", 0, 1, 10⟩, ⟨"A", 1, 2, 20⟩]

end PIS

namespace PIS

theorem fminPy_num (a b : ℚ) : fminPy (.num a) (.num b) = .num (min a b) := by
  simp only [fminPy, fltF, decide_eq_true_eq]
  rcases lt_or_ge b a with h | h
  · rw [if_pos h, min_eq_right h.le]
  · rw [if_neg (not_lt.mpr h), min_eq_left h]

theorem fadd_num (a b : ℚ) : fadd (.num a) (.num b) = .num (a + b) := rfl

theorem fsub_num (a b : ℚ) : fsub (.num a) (.num b) = .num (a - b) := rfl

theorem fgtq_num (a c : ℚ) : fgtq (.num a) c = decide (c < a) := rfl

theorem fltq_num (a c : ℚ) : fltq (.num a) c = decide (a < c) := rfl

theorem range_one_eq : List.range 1 = [0] := rfl

theorem ebind_ok {ε α β : Type} (a : α) (f : α → Except ε β) :
    (Except.ok a : Except ε α) >>= f = f a := rfl

theorem ebind_pure {ε α β : Type} (a : α) (f : α → Except ε β) :
    (pure a : Except ε α) >>= f = f a := rfl

theorem olsFit_eq (ys : List ℚ) (h : ys ≠ []) :
    olsFit ys = .ok (olsSlope ys, olsR2 ys) := by
  rw [olsFit, if_neg (by simpa using h)]
  rfl

/-- Normal form of the trend analyzer on a nonempty series: the overall
fit, the recent-window fit with its below-12 fallback, the guarded
percentage change, and the strength / direction labels. -/
theorem trendAnalyze_eq (ys : List ℚ) (h : ys ≠ []) :
    trendAnalyze ys = .ok
      { slope := olsSlope ys
        r_squared := olsR2 ys
        recent_slope :=
          if 12 ≤ ys.length then olsSlope (ys.drop (ys.length - 12)) else olsSlope ys
        recent_r_squared :=
          if 12 ≤ ys.length then olsR2 (ys.drop (ys.length - 12)) else olsR2 ys
        total_change_pct :=
          if ys.headD 0 > 0 then ((ys.getLastD 0 - ys.headD 0) / ys.headD 0) * 100 else 0
        strength :=
          if fgtq (olsR2 ys) (7/10) then "STRONG"
          else if fgtq (olsR2 ys) (4/10) then "MODERATE" else "WEAK"
        direction :=
          if olsSlope ys > 1/2 then "RISING"
          else if olsSlope ys < -(1/2) then "DECLINING" else "STABLE" } := by
  rw [trendAnalyze, olsFit_eq ys h]
  by_cases h12 : 12 ≤ ys.length
  · have hlen : (ys.drop (ys.length - 12)).length = 12 := by
      rw [List.length_drop]; omega
    have hd : ys.drop (ys.length - 12) ≠ [] := by
      intro hcon; rw [hcon] at hlen; exact absurd hlen (by norm_num)
    simp only [ebind_ok, if_pos h12, olsFit_eq _ hd]
    rfl
  · simp only [ebind_ok, if_neg h12, ebind_pure]
    rfl

/-- C7: for every non-empty (date-sorted) series, total_change_pct is
(last - first) / first * 100 when the first value is positive, and 0
when the first value is 0 (it is an exact rational, never an infinity
or NaN). -/
theorem trend_total_change_pct (ys : List ℚ) (h : ys ≠ []) :
    ∃ o, trendAnalyze ys = .ok o ∧
      (0 < ys.headD 0 →
        o.total_change_pct = (ys.getLastD 0 - ys.headD 0) / ys.headD 0 * 100) ∧
      (ys.headD 0 = 0 → o.total_change_pct = 0) := by
  refine ⟨_, trendAnalyze_eq ys h, ?_, ?_⟩
  · intro hpos
    show (if ys.headD 0 > 0 then ((ys.getLastD 0 - ys.headD 0) / ys.headD 0) * 100 else 0)
      = (ys.getLastD 0 - ys.headD 0) / ys.headD 0 * 100
    rw [if_pos hpos]
  · intro hz
    show (if ys.headD 0 > 0 then ((ys.getLastD 0 - ys.headD 0) / ys.headD 0) * 100 else 0) = 0
    rw [if_neg (by rw [hz]; exact lt_irrefl 0)]

/-- Witness for C7: the series [10,20,30,40,50] yields
total_change_pct = 400 and the zero-baseline series [0,5,10] yields
total_change_pct = 0. -/
theorem trend_total_change_pct_witness :
    ([10, 20, 30, 40, 50] : List ℚ) ≠ [] ∧ ([0, 5, 10] : List ℚ) ≠ [] ∧
    (∃ o, trendAnalyze ([10, 20, 30, 40, 50] : List ℚ) = .ok o ∧
      o.total_change_pct = 400) ∧
    (∃ o, trendAnalyze ([0, 5, 10] : List ℚ) = .ok o ∧ o.total_change_pct = 0) := by
  refine ⟨by simp, by simp, ?_, ?_⟩
  · obtain ⟨o, ho, h1, _⟩ := trend_total_change_pct [10, 20, 30, 40, 50] (by simp)
    refine ⟨o, ho, ?_⟩
    rw [h1 (by norm_num)]
    norm_num
  · obtain ⟨o, ho, _, h2⟩ := trend_total_change_pct [0, 5, 10] (by simp)
    exact ⟨o, ho, h2 (by norm_num)⟩

/-- C6 (amended): on a series of length exactly 1 the trend analyzer
returns slope = 0 deterministically and without raising, but
r_squared is NaN, not 0: sklearn's r2_score is undefined below two
samples and returns NaN (the recent fit collapses to the same values). -/
theorem single_point_trend (v : ℚ) :
    olsFit [v] = .ok (0, FVal.nan) ∧
    (∃ o, trendAnalyze [v] = .ok o ∧ o.slope = 0 ∧ o.r_squared = FVal.nan ∧
      o.recent_slope = 0 ∧ o.recent_r_squared = FVal.nan) := by
  have hs : olsSlope [v] = 0 := by
    norm_num [olsSlope, range_one_eq]
  have hr : olsR2 [v] = FVal.nan := by
    norm_num [olsR2]
  refine ⟨?_, ⟨_, trendAnalyze_eq [v] (by simp), ?_, ?_, ?_, ?_⟩⟩
  · rw [olsFit_eq [v] (by simp), hs, hr]
  · exact hs
  · exact hr
  · simp [hs]
  · simp [hr]

/-- C6 counterexample: on the one-point series [5] the code returns
r_squared = NaN, which is not the 0 the claim states. -/
theorem single_point_trend_cex :
    olsFit [(5 : ℚ)] = .ok (0, FVal.nan) ∧ FVal.nan ≠ FVal.num 0 := by
  constructor
  · rw [olsFit_eq [(5 : ℚ)] (by simp)]
    norm_num [olsSlope, olsR2, range_one_eq]
  · exact fun hcon => FVal.noConfusion hcon

/-- C8: for a series of length at least 12, recent_slope and
recent_r_squared come from an independent OLS fit over exactly the last
12 periods (re-indexed from 0 inside olsFit); for a shorter series they
are exactly the overall slope and r_squared. -/
theorem recent_window_fit (ys : List ℚ) (h : ys ≠ []) :
    ∃ o, trendAnalyze ys = .ok o ∧
      (12 ≤ ys.length →
        (ys.drop (ys.length - 12)).length = 12 ∧
        olsFit (ys.drop (ys.length - 12)) = .ok (o.recent_slope, o.recent_r_squared)) ∧
      (ys.length < 12 → o.recent_slope = o.slope ∧ o.recent_r_squared = o.r_squared) := by
  refine ⟨_, trendAnalyze_eq ys h, ?_, ?_⟩
  · intro h12
    have hlen : (ys.drop (ys.length - 12)).length = 12 := by
      rw [List.length_drop]; omega
    refine ⟨hlen, ?_⟩
    have hd : ys.drop (ys.length - 12) ≠ [] := by
      intro hcon; rw [hcon] at hlen; exact absurd hlen (by norm_num)
    rw [olsFit_eq _ hd]
    simp [h12]
  · intro hlt
    have hn : ¬ 12 ≤ ys.length := by omega
    simp [hn]

theorem insertBy_perm {α : Type} (le : α → α → Bool) (a : α) (l : List α) :
    (insertBy le a l).Perm (a :: l) := by
  induction l with
  | nil => exact List.Perm.refl _
  | cons b t ih =>
    simp only [insertBy]
    by_cases hc : le a b = true
    · rw [if_pos hc]
    · rw [if_neg hc]
      exact (ih.cons b).trans (List.Perm.swap a b t)

theorem sortBy_perm {α : Type} (le : α → α → Bool) (l : List α) : (sortBy le l).Perm l := by
  induction l with
  | nil => exact List.Perm.refl _
  | cons a t ih =>
    simp only [sortBy]
    exact (insertBy_perm le a (sortBy le t)).trans (ih.cons a)

theorem insertBy_pairwise {α : Type} (le : α → α → Bool)
    (htr : ∀ a b c, le a b = true → le b c = true → le a c = true)
    (htot : ∀ a b, le a b = true ∨ le b a = true)
    (a : α) (l : List α) (hl : l.Pairwise (fun x y => le x y = true)) :
    (insertBy le a l).Pairwise (fun x y => le x y = true) := by
  induction l with
  | nil => simp [insertBy]
  | cons b t ih =>
    rw [List.pairwise_cons] at hl
    obtain ⟨hb, ht⟩ := hl
    simp only [insertBy]
    by_cases hc : le a b = true
    · rw [if_pos hc, List.pairwise_cons]
      refine ⟨?_, List.pairwise_cons.mpr ⟨hb, ht⟩⟩
      intro x hx
      rcases List.mem_cons.mp hx with rfl | hx
      · exact hc
      · exact htr a b x hc (hb x hx)
    · rw [if_neg hc, List.pairwise_cons]
      refine ⟨?_, ih ht⟩
      intro x hx
      rcases List.mem_cons.mp ((insertBy_perm le a t).mem_iff.mp hx) with rfl | hx
      · exact (htot x b).resolve_left hc
      · exact hb x hx

theorem sortBy_pairwise {α : Type} (le : α → α → Bool)
    (htr : ∀ a b c, le a b = true → le b c = true → le a c = true)
    (htot : ∀ a b, le a b = true ∨ le b a = true) (l : List α) :
    (sortBy le l).Pairwise (fun x y => le x y = true) := by
  induction l with
  | nil => simp [sortBy]
  | cons a t ih =>
    simp only [sortBy]
    exact insertBy_pairwise le htr htot a _ ih

theorem monthKeys_perm (rows : List Row) :
    (monthKeys rows).Perm ((rows.map Row.month).dedup) := sortBy_perm _ _

theorem monthKeys_sorted (rows : List Row) :
    (monthKeys rows).Pairwise (fun m n => m ≤ n) := by
  have h := sortBy_pairwise (fun m n : ℕ => decide (m ≤ n))
    (fun a b c hab hbc => by
      simp only [decide_eq_true_eq] at *
      exact le_trans hab hbc)
    (fun a b => by
      simp only [decide_eq_true_eq]
      exact le_total a b)
    ((rows.map Row.month).dedup)
  exact h.imp (fun hab => by simpa using hab)

theorem monthKeys_nodup (rows : List Row) : (monthKeys rows).Nodup :=
  (monthKeys_perm rows).nodup_iff.mpr (List.nodup_dedup _)

theorem monthKeys_strict (rows : List Row) :
    (monthKeys rows).Pairwise (fun m n => m < n) := by
  have h := (monthKeys_sorted rows).and (monthKeys_nodup rows)
  exact h.imp (fun hab => lt_of_le_of_ne hab.1 hab.2)

theorem monthlyMeans_months_strict (rows : List Row) :
    (monthlyMeans rows).Pairwise (fun p q => p.1 < q.1) := by
  rw [monthlyMeans, List.pairwise_map]
  exact monthKeys_strict rows

theorem insertBy_pairwise_peak (a : ℕ × ℚ) (l : List (ℕ × ℚ))
    (hl : l.Pairwise peakRel) (hmon : ∀ q ∈ l, a.1 < q.1) :
    (insertBy peakLe a l).Pairwise peakRel := by
  induction l with
  | nil => simp [insertBy]
  | cons b t ih =>
    rw [List.pairwise_cons] at hl
    obtain ⟨hb, ht⟩ := hl
    simp only [insertBy]
    by_cases hc : peakLe a b = true
    · rw [if_pos hc, List.pairwise_cons]
      have hba : b.2 ≤ a.2 := by simpa [peakLe] using hc
      refine ⟨?_, List.pairwise_cons.mpr ⟨hb, ht⟩⟩
      intro x hx
      rcases List.mem_cons.mp hx with rfl | hx
      · rcases lt_or_eq_of_le hba with hlt | heq
        · exact Or.inl hlt
        · exact Or.inr ⟨heq.symm, hmon x (List.mem_cons_self x t)⟩
      · rcases hb x hx with hlt | ⟨heq, _⟩
        · exact Or.inl (lt_of_lt_of_le hlt hba)
        · have hxa : x.2 ≤ a.2 := heq ▸ hba
          rcases lt_or_eq_of_le hxa with h2 | h2
          · exact Or.inl h2
          · exact Or.inr ⟨h2.symm, hmon x (List.mem_cons_of_mem b hx)⟩
    · rw [if_neg hc, List.pairwise_cons]
      have hab : a.2 < b.2 := by
        have : ¬ b.2 ≤ a.2 := by simpa [peakLe] using hc
        exact lt_of_not_ge this
      refine ⟨?_, ih ht (fun q hq => hmon q (List.mem_cons_of_mem b hq))⟩
      intro x hx
      rcases List.mem_cons.mp ((insertBy_perm peakLe a t).mem_iff.mp hx) with rfl | hx
      · exact Or.inl hab
      · exact hb x hx

theorem insertBy_pairwise_low (a : ℕ × ℚ) (l : List (ℕ × ℚ))
    (hl : l.Pairwise lowRel) (hmon : ∀ q ∈ l, a.1 < q.1) :
    (insertBy lowLe a l).Pairwise lowRel := by
  induction l with
  | nil => simp [insertBy]
  | cons b t ih =>
    rw [List.pairwise_cons] at hl
    obtain ⟨hb, ht⟩ := hl
    simp only [insertBy]
    by_cases hc : lowLe a b = true
    · rw [if_pos hc, List.pairwise_cons]
      have hab : a.2 ≤ b.2 := by simpa [lowLe] using hc
      refine ⟨?_, List.pairwise_cons.mpr ⟨hb, ht⟩⟩
      intro x hx
      rcases List.mem_cons.mp hx with rfl | hx
      · rcases lt_or_eq_of_le hab with hlt | heq
        · exact Or.inl hlt
        · exact Or.inr ⟨heq, hmon x (List.mem_cons_self x t)⟩
      · rcases hb x hx with hlt | ⟨heq, _⟩
        · exact Or.inl (lt_of_le_of_lt hab hlt)
        · have hxa : a.2 ≤ x.2 := heq ▸ hab
          rcases lt_or_eq_of_le hxa with h2 | h2
          · exact Or.inl h2
          · exact Or.inr ⟨h2, hmon x (List.mem_cons_of_mem b hx)⟩
    · rw [if_neg hc, List.pairwise_cons]
      have hab : b.2 < a.2 := by
        have : ¬ a.2 ≤ b.2 := by simpa [lowLe] using hc
        exact lt_of_not_ge this
      refine ⟨?_, ih ht (fun q hq => hmon q (List.mem_cons_of_mem b hq))⟩
      intro x hx
      rcases List.mem_cons.mp ((insertBy_perm lowLe a t).mem_iff.mp hx) with rfl | hx
      · exact Or.inl hab
      · exact hb x hx

theorem sortBy_pairwise_peak (l : List (ℕ × ℚ))
    (hl : l.Pairwise (fun p q => p.1 < q.1)) :
    (sortBy peakLe l).Pairwise peakRel := by
  induction l with
  | nil => simp [sortBy]
  | cons a t ih =>
    rw [List.pairwise_cons] at hl
    obtain ⟨ha, ht⟩ := hl
    simp only [sortBy]
    exact insertBy_pairwise_peak a _ (ih ht)
      (fun q hq => ha q ((sortBy_perm peakLe t).mem_iff.mp hq))

theorem sortBy_pairwise_low (l : List (ℕ × ℚ))
    (hl : l.Pairwise (fun p q => p.1 < q.1)) :
    (sortBy lowLe l).Pairwise lowRel := by
  induction l with
  | nil => simp [sortBy]
  | cons a t ih =>
    rw [List.pairwise_cons] at hl
    obtain ⟨ha, ht⟩ := hl
    simp only [sortBy]
    exact insertBy_pairwise_low a _ (ih ht)
      (fun q hq => ha q ((sortBy_perm lowLe t).mem_iff.mp hq))

/-- C4: peak_months are the first 3 months of a permutation of the
monthly-mean series sorted so that every earlier entry has a strictly
larger mean, or an equal mean and a strictly smaller month number
(descending by mean, ties by ascending month); low_months are the
analogue for the ascending order.  Their lengths are min 3 (number of
distinct months), so with fewer than 3 (in particular fewer than 2)
distinct months the analyzer returns exactly the months that exist
instead of failing. -/
theorem peak_low_months (rows : List Row) :
    (seasonAnalyze rows).peak_months
        = ((sortBy peakLe (monthlyMeans rows)).take 3).map Prod.fst ∧
    (sortBy peakLe (monthlyMeans rows)).Perm (monthlyMeans rows) ∧
    (sortBy peakLe (monthlyMeans rows)).Pairwise peakRel ∧
    (seasonAnalyze rows).peak_months.length = min 3 (monthlyMeans rows).length ∧
    (seasonAnalyze rows).low_months
        = ((sortBy lowLe (monthlyMeans rows)).take 3).map Prod.fst ∧
    (sortBy lowLe (monthlyMeans rows)).Perm (monthlyMeans rows) ∧
    (sortBy lowLe (monthlyMeans rows)).Pairwise lowRel ∧
    (seasonAnalyze rows).low_months.length = min 3 (monthlyMeans rows).length := by
  refine ⟨rfl, sortBy_perm _ _, sortBy_pairwise_peak _ (monthlyMeans_months_strict rows),
    ?_, rfl, sortBy_perm _ _, sortBy_pairwise_low _ (monthlyMeans_months_strict rows), ?_⟩
  · show (((sortBy peakLe (monthlyMeans rows)).take 3).map Prod.fst).length = _
    rw [List.length_map, List.length_take, (sortBy_perm peakLe _).length_eq]
  · show (((sortBy lowLe (monthlyMeans rows)).take 3).map Prod.fst).length = _
    rw [List.length_map, List.length_take, (sortBy_perm lowLe _).length_eq]

theorem foldl_max_mem (a : ℚ) (l : List ℚ) : l.foldl max a ∈ a :: l := by
  induction l generalizing a with
  | nil => simp
  | cons b t ih =>
    rw [List.foldl_cons]
    rcases List.mem_cons.mp (ih (max a b)) with h | h
    · rcases max_choice a b with hm | hm <;> rw [hm] at h ⊢ <;> simp [h]
    · right
      exact List.mem_cons_of_mem b h

theorem foldl_min_mem (a : ℚ) (l : List ℚ) : l.foldl min a ∈ a :: l := by
  induction l generalizing a with
  | nil => simp
  | cons b t ih =>
    rw [List.foldl_cons]
    rcases List.mem_cons.mp (ih (min a b)) with h | h
    · rcases min_choice a b with hm | hm <;> rw [hm] at h ⊢ <;> simp [h]
    · right
      exact List.mem_cons_of_mem b h

theorem qmaxD_mem (l : List ℚ) (h : l ≠ []) : qmaxD l ∈ l :=
  match l, h with
  | a :: t, _ => foldl_max_mem a t

theorem qminD_mem (l : List ℚ) (h : l ≠ []) : qminD l ∈ l :=
  match l, h with
  | a :: t, _ => foldl_min_mem a t

theorem monthKeys_ne_nil (rows : List Row) (h : rows ≠ []) : monthKeys rows ≠ [] := by
  intro hcon
  have hd : ((rows.map Row.month).dedup).Perm [] := hcon ▸ (monthKeys_perm rows).symm
  have : rows.map Row.month = [] := (List.dedup_eq_nil _).mp hd.eq_nil
  exact h (List.map_eq_nil_iff.mp this)

theorem mmVals_ne_nil (rows : List Row) (h : rows ≠ []) : mmVals rows ≠ [] := by
  intro hcon
  have h1 : monthlyMeans rows = [] := List.map_eq_nil_iff.mp hcon
  exact monthKeys_ne_nil rows h (List.map_eq_nil_iff.mp h1)

theorem fmaxS_of_ne_nil (l : List ℚ) (h : l ≠ []) : fmaxS l = .num (qmaxD l) := by
  rw [fmaxS, if_neg (by simpa using h)]

theorem fminS_of_ne_nil (l : List ℚ) (h : l ≠ []) : fminS l = .num (qminD l) := by
  rw [fminS, if_neg (by simpa using h)]

theorem fmean_of_ne_nil (l : List ℚ) (h : l ≠ []) : fmean l = .num (qmean l) := by
  rw [fmean, if_neg (by simpa using h)]

theorem fmul_num (a b : ℚ) : fmul (.num a) (.num b) = .num (a * b) := rfl

/-- C3: on every non-empty series whose monthly means have nonzero
mean, the seasonality analyzer computes
seasonality_score = (max(monthly_means) - min(monthly_means)) /
mean(monthly_means), is_seasonal exactly when that ratio exceeds 0.3,
and seasonal_strength = stddev/mean (stated through its square, the
sample variance over the squared mean, which stays rational); if all
monthly means are equal the score is 0 and is_seasonal is false. -/
theorem seasonality_score_spec (rows : List Row) (hne : rows ≠ [])
    (hmean : qmean (mmVals rows) ≠ 0) :
    (seasonAnalyze rows).seasonality_score
        = .num ((qmaxD (mmVals rows) - qminD (mmVals rows)) / qmean (mmVals rows)) ∧
    ((seasonAnalyze rows).is_seasonal = true ↔
        (qmaxD (mmVals rows) - qminD (mmVals rows)) / qmean (mmVals rows) > 3/10) ∧
    (2 ≤ (mmVals rows).length →
        (seasonAnalyze rows).strengthSq
          = .num (qsvar (mmVals rows) / qmean (mmVals rows) ^ 2)) ∧
    ((∀ v ∈ mmVals rows, ∀ w ∈ mmVals rows, v = w) →
        (seasonAnalyze rows).seasonality_score = .num 0 ∧
        (seasonAnalyze rows).is_seasonal = false) := by
  have hv : mmVals rows ≠ [] := mmVals_ne_nil rows hne
  have hscore : (seasonAnalyze rows).seasonality_score
      = .num ((qmaxD (mmVals rows) - qminD (mmVals rows)) / qmean (mmVals rows)) := by
    show fdiv (fsub (fmaxS (mmVals rows)) (fminS (mmVals rows))) (fmean (mmVals rows)) = _
    rw [fmaxS_of_ne_nil _ hv, fminS_of_ne_nil _ hv, fmean_of_ne_nil _ hv, fsub_num]
    simp only [fdiv]
    rw [if_neg hmean]
  have hseas : (seasonAnalyze rows).is_seasonal
      = fgtq (seasonAnalyze rows).seasonality_score (3/10) := rfl
  refine ⟨hscore, ?_, ?_, ?_⟩
  · rw [hseas, hscore]
    simp [fgtq]
  · intro hlen
    show fdiv (fsvar (mmVals rows)) (fmul (fmean (mmVals rows)) (fmean (mmVals rows))) = _
    rw [fmean_of_ne_nil _ hv, fmul_num, fsvar, if_neg (by omega), fdiv]
    rw [if_neg (mul_ne_zero hmean hmean), pow_two]
  · intro hall
    have heq : qmaxD (mmVals rows) = qminD (mmVals rows) :=
      hall _ (qmaxD_mem _ hv) _ (qminD_mem _ hv)
    have hz : (seasonAnalyze rows).seasonality_score = .num 0 := by
      rw [hscore, heq, sub_self, zero_div]
    refine ⟨hz, ?_⟩
    rw [hseas, hz]
    simp only [fgtq, decide_eq_false_iff_not]
    norm_num

/-- Witness for C3: a one-row table for product A with a single month
of mean 10, whose mean of monthly means is 10, which is nonzero. -/
theorem seasonality_score_spec_witness :
    ([⟨"A", 0, 1, 10⟩] : List Row) ≠ [] ∧
    qmean (mmVals [⟨"A", 0, 1, 10⟩]) ≠ 0 ∧
    ((seasonAnalyze [⟨"A", 0, 1, 10⟩]).seasonality_score
        = .num ((qmaxD (mmVals [⟨"A", 0, 1, 10⟩]) - qminD (mmVals [⟨"A", 0, 1, 10⟩]))
          / qmean (mmVals [⟨"A", 0, 1, 10⟩])) ∧
      ((seasonAnalyze [⟨"A", 0, 1, 10⟩]).is_seasonal = true ↔
        (qmaxD (mmVals [⟨"A", 0, 1, 10⟩]) - qminD (mmVals [⟨"A", 0, 1, 10⟩]))
          / qmean (mmVals [⟨"A", 0, 1, 10⟩]) > 3/10) ∧
      (2 ≤ (mmVals [⟨"A", 0, 1, 10⟩]).length →
        (seasonAnalyze [⟨"A", 0, 1, 10⟩]).strengthSq
          = .num (qsvar (mmVals [⟨"A", 0, 1, 10⟩]) / qmean (mmVals [⟨"A", 0, 1, 10⟩]) ^ 2)) ∧
      ((∀ v ∈ mmVals [⟨"A", 0, 1, 10⟩], ∀ w ∈ mmVals [⟨"A", 0, 1, 10⟩], v = w) →
        (seasonAnalyze [⟨"A", 0, 1, 10⟩]).seasonality_score = .num 0 ∧
        (seasonAnalyze [⟨"A", 0, 1, 10⟩]).is_seasonal = false)) := by
  have hmm : mmVals ([⟨"A", 0, 1, 10⟩] : List Row) = [10] := by
    norm_num [mmVals, monthlyMeans, monthKeys, monthMean, sortBy, insertBy, List.dedup]
  have hq : qmean (mmVals [⟨"A", 0, 1, 10⟩]) ≠ 0 := by
    rw [hmm]; norm_num [qmean]
  exact ⟨by simp, hq, seasonality_score_spec [⟨"A", 0, 1, 10⟩] (by simp) hq⟩

theorem fdiv_nan_left (x : FVal) : fdiv .nan x = .nan := by cases x <;> rfl

theorem monthMean_nonneg (rows : List Row) (m : ℕ)
    (hnn : ∀ r ∈ rows, 0 ≤ r.value) : 0 ≤ monthMean rows m := by
  rw [monthMean]
  apply div_nonneg
  · apply List.sum_nonneg
    intro x hx
    obtain ⟨r, hr, rfl⟩ := List.mem_map.mp hx
    exact hnn r (List.mem_of_mem_filter hr)
  · exact Nat.cast_nonneg _

theorem mmVals_nonneg (rows : List Row) (hnn : ∀ r ∈ rows, 0 ≤ r.value) :
    ∀ v ∈ mmVals rows, 0 ≤ v := by
  intro v hv
  obtain ⟨pm, hpm, rfl⟩ := List.mem_map.mp hv
  obtain ⟨m, _, rfl⟩ := List.mem_map.mp hpm
  exact monthMean_nonneg rows m hnn

theorem all_zero_of_mean_zero (l : List ℚ) (hne : l ≠ [])
    (hnn : ∀ v ∈ l, 0 ≤ v) (hz : qmean l = 0) : ∀ v ∈ l, v = 0 := by
  have hsum : l.sum = 0 := by
    rw [qmean, div_eq_zero_iff] at hz
    rcases hz with h | h
    · exact h
    · have : l.length = 0 := by exact_mod_cast h
      exact absurd this (by simpa using hne)
  intro v hv
  have h1 := List.single_le_sum hnn v hv
  have h2 := hnn v hv
  rw [hsum] at h1
  linarith

/-- On a nonempty, nonnegative series whose monthly means average to
zero, every monthly mean is zero and both seasonality statistics come
out as NaN (0/0), with no exception and no typed signal. -/
theorem seasonality_nan_of_zero_mean (rows : List Row) (hne : rows ≠ [])
    (hnn : ∀ r ∈ rows, 0 ≤ r.value) (hz : qmean (mmVals rows) = 0) :
    (seasonAnalyze rows).seasonality_score = FVal.nan ∧
    (seasonAnalyze rows).strengthSq = FVal.nan := by
  have hv : mmVals rows ≠ [] := mmVals_ne_nil rows hne
  have hall : ∀ v ∈ mmVals rows, v = 0 :=
    all_zero_of_mean_zero _ hv (mmVals_nonneg rows hnn) hz
  have hmax : qmaxD (mmVals rows) = 0 := hall _ (qmaxD_mem _ hv)
  have hmin : qminD (mmVals rows) = 0 := hall _ (qminD_mem _ hv)
  constructor
  · show fdiv (fsub (fmaxS (mmVals rows)) (fminS (mmVals rows)))
      (fmean (mmVals rows)) = FVal.nan
    rw [fmaxS_of_ne_nil _ hv, fminS_of_ne_nil _ hv, fmean_of_ne_nil _ hv, fsub_num,
      hmax, hmin, hz]
    norm_num [fdiv]
  · show fdiv (fsvar (mmVals rows))
      (fmul (fmean (mmVals rows)) (fmean (mmVals rows))) = FVal.nan
    rw [fmean_of_ne_nil _ hv, hz, fmul_num, mul_zero]
    by_cases hlen : (mmVals rows).length < 2
    · rw [fsvar, if_pos hlen, fdiv_nan_left]
    · have hq : qsvar (mmVals rows) = 0 := by
        rw [qsvar, hz]
        have hzs : ∀ x ∈ (mmVals rows).map (fun x => (x - 0) ^ 2), x = 0 := by
          intro x hx
          obtain ⟨v, hvin, rfl⟩ := List.mem_map.mp hx
          rw [hall v hvin]
          norm_num
        rw [List.sum_eq_zero hzs, zero_div]
      rw [fsvar, if_neg hlen, hq]
      norm_num [fdiv]

/-- C5 (amended): when the monthly means of a nonempty, nonnegative
product series have mean zero, the seasonality tool silently computes
NaN (0/0) for both seasonality_score and seasonal_strength and returns
its ordinary report string through the normal channel; no typed
DivisionByZero condition is signalled (none exists in the tool). -/
theorem div_zero_silent_nan (tbl : List Row) (p : String)
    (hne : productRows tbl p ≠ [])
    (hnn : ∀ r ∈ productRows tbl p, 0 ≤ r.value)
    (hz : qmean (mmVals (productRows tbl p)) = 0) :
    (seasonAnalyze (productRows tbl p)).seasonality_score = FVal.nan ∧
    (seasonAnalyze (productRows tbl p)).strengthSq = FVal.nan ∧
    runSeason (.ok tbl) p = seasonFormat p (seasonAnalyze (productRows tbl p)) := by
  obtain ⟨h1, h2⟩ := seasonality_nan_of_zero_mean _ hne hnn hz
  exact ⟨h1, h2, rfl⟩

theorem productRows_allZero : productRows allZeroTbl "A" = allZeroTbl := by
  simp [productRows, allZeroTbl]

theorem mmVals_allZero : mmVals allZeroTbl = [0, 0] := by
  norm_num [mmVals, monthlyMeans, monthKeys, monthMean, sortBy, insertBy,
    List.dedup, allZeroTbl]

/-- C5 counterexample: on a table whose product A has all-zero sales in
two months, the seasonality tool computes seasonality_score = NaN and
seasonal_strength = NaN and returns its ordinary report string — it
silently returns NaN instead of signalling a typed DivisionByZero. -/
theorem div_zero_silent_nan_cex :
    (seasonAnalyze (productRows allZeroTbl "A")).seasonality_score = FVal.nan ∧
    (seasonAnalyze (productRows allZeroTbl "A")).strengthSq = FVal.nan ∧
    seasonBody (.ok allZeroTbl) "A" = .ok (seasonAnalyze (productRows allZeroTbl "A")) ∧
    runSeason (.ok allZeroTbl) "A"
      = seasonFormat "A" (seasonAnalyze (productRows allZeroTbl "A")) := by
  refine ⟨?_, ?_, rfl, rfl⟩
  · rw [productRows_allZero]
    show fdiv (fsub (fmaxS (mmVals allZeroTbl)) (fminS (mmVals allZeroTbl)))
      (fmean (mmVals allZeroTbl)) = FVal.nan
    rw [mmVals_allZero]
    norm_num [fmaxS, fminS, fmean, qmaxD, qminD, qmean, fsub, fdiv]
  · rw [productRows_allZero]
    show fdiv (fsvar (mmVals allZeroTbl))
      (fmul (fmean (mmVals allZeroTbl)) (fmean (mmVals allZeroTbl))) = FVal.nan
    rw [mmVals_allZero]
    norm_num [fsvar, qsvar, qmean, fmean, fmul, fdiv]

/-- Witness for C5 (amended): the all-zero two-month table for product
A satisfies the hypotheses and exhibits the silent NaN behavior. -/
theorem div_zero_silent_nan_witness :
    productRows allZeroTbl "A" ≠ [] ∧
    (∀ r ∈ productRows allZeroTbl "A", 0 ≤ r.value) ∧
    qmean (mmVals (productRows allZeroTbl "A")) = 0 ∧
    ((seasonAnalyze (productRows allZeroTbl "A")).seasonality_score = FVal.nan ∧
      (seasonAnalyze (productRows allZeroTbl "A")).strengthSq = FVal.nan ∧
      runSeason (.ok allZeroTbl) "A"
        = seasonFormat "A" (seasonAnalyze (productRows allZeroTbl "A"))) := by
  have h1 : productRows allZeroTbl "A" ≠ [] := by
    rw [productRows_allZero]; simp [allZeroTbl]
  have h2 : ∀ r ∈ productRows allZeroTbl "A", 0 ≤ r.value := by
    rw [productRows_allZero]
    intro r hr
    rcases List.mem_cons.mp hr with rfl | hr
    · norm_num
    · rcases List.mem_cons.mp hr with rfl | hr
      · norm_num
      · simp at hr
  have h3 : qmean (mmVals (productRows allZeroTbl "A")) = 0 := by
    rw [productRows_allZero, mmVals_allZero]
    norm_num [qmean]
  exact ⟨h1, h2, h3, div_zero_silent_nan allZeroTbl "A" h1 h2 h3⟩

/-- C9 (amended): when zero rows of the table match the product, there
is no typed ProductNotFound anywhere: the seasonality tool returns an
ordinary report string built from NaN statistics and empty month lists,
while the trend and classification tools return generic untyped
"Error in ..." strings produced by the blanket handler from the
ValueError that LinearRegression.fit raises on the empty series. -/
theorem product_not_found_behavior (tbl : List Row) (p : String)
    (h : ∀ r ∈ tbl, r.product ≠ p) :
    productRows tbl p = [] ∧
    seasonBody (.ok tbl) p = .ok (seasonAnalyze []) ∧
    (seasonAnalyze []).seasonality_score = FVal.nan ∧
    (seasonAnalyze []).peak_months = [] ∧
    (seasonAnalyze []).low_months = [] ∧
    runSeason (.ok tbl) p = seasonFormat p (seasonAnalyze []) ∧
    runTrend (.ok tbl) p = "Error in trend analysis: " ++ emptyFitMsg ∧
    runClassify (.ok tbl) p = "Error in product classification: " ++ emptyFitMsg := by
  have hpr : productRows tbl p = [] := by
    rw [productRows, List.filter_eq_nil_iff]
    intro r hr
    simp [h r hr]
  refine ⟨hpr, ?_, rfl, rfl, rfl, ?_, ?_, ?_⟩
  · show Except.ok (seasonAnalyze (productRows tbl p)) = Except.ok (seasonAnalyze [])
    rw [hpr]
  · show seasonFormat p (seasonAnalyze (productRows tbl p))
      = seasonFormat p (seasonAnalyze [])
    rw [hpr]
  · have hb : trendBody (.ok tbl) p = .error ⟨emptyFitMsg⟩ := by
      show trendAnalyze (sortedVals (productRows tbl p)) = _
      rw [hpr]
      rfl
    rw [runTrend, hb]
  · have hb : classifyBody (.ok tbl) p = .error ⟨emptyFitMsg⟩ := by
      show classifyAnalyze (productRows tbl p) = _
      rw [hpr]
      rfl
    rw [runClassify, hb]

/-- C9 counterexample: for a table with rows only for product A, asking
for product B produces an ordinary seasonality report (NaN score, empty
month lists) and generic untyped "Error in ..." strings from the other
two tools — there is no typed ProductNotFound failure. -/
theorem product_not_found_cex :
    seasonBody (.ok onlyATbl) "B" = .ok (seasonAnalyze []) ∧
    (seasonAnalyze []).seasonality_score = FVal.nan ∧
    (seasonAnalyze []).peak_months = [] ∧
    runSeason (.ok onlyATbl) "B" = seasonFormat "B" (seasonAnalyze []) ∧
    runTrend (.ok onlyATbl) "B" = "Error in trend analysis: " ++ emptyFitMsg ∧
    runClassify (.ok onlyATbl) "B" = "Error in product classification: " ++ emptyFitMsg := by
  have hpr : productRows onlyATbl "B" = [] := by
    simp [productRows, onlyATbl]
  refine ⟨?_, rfl, rfl, ?_, ?_, ?_⟩
  · show Except.ok (seasonAnalyze (productRows onlyATbl "B")) = Except.ok (seasonAnalyze [])
    rw [hpr]
  · show seasonFormat "B" (seasonAnalyze (productRows onlyATbl "B"))
      = seasonFormat "B" (seasonAnalyze [])
    rw [hpr]
  · have hb : trendBody (.ok onlyATbl) "B" = .error ⟨emptyFitMsg⟩ := by
      show trendAnalyze (sortedVals (productRows onlyATbl "B")) = _
      rw [hpr]
      rfl
    rw [runTrend, hb]
  · have hb : classifyBody (.ok onlyATbl) "B" = .error ⟨emptyFitMsg⟩ := by
      show classifyAnalyze (productRows onlyATbl "B") = _
      rw [hpr]
      rfl
    rw [runClassify, hb]

/-- Witness for C9 (amended): the concrete table with rows only for
product A, queried for product B. -/
theorem product_not_found_behavior_witness :
    (∀ r ∈ onlyATbl, r.product ≠ "B") ∧
    (productRows onlyATbl "B" = [] ∧
      seasonBody (.ok onlyATbl) "B" = .ok (seasonAnalyze []) ∧
      (seasonAnalyze []).seasonality_score = FVal.nan ∧
      (seasonAnalyze []).peak_months = [] ∧
      (seasonAnalyze []).low_months = [] ∧
      runSeason (.ok onlyATbl) "B" = seasonFormat "B" (seasonAnalyze []) ∧
      runTrend (.ok onlyATbl) "B" = "Error in trend analysis: " ++ emptyFitMsg ∧
      runClassify (.ok onlyATbl) "B"
        = "Error in product classification: " ++ emptyFitMsg) := by
  have h : ∀ r ∈ onlyATbl, r.product ≠ "B" := by
    intro r hr
    rcases List.mem_cons.mp hr with rfl | hr
    · simp
    · rcases List.mem_cons.mp hr with rfl | hr
      · simp
      · simp at hr
  exact ⟨h, product_not_found_behavior onlyATbl "B" h⟩

/-- C10: every call of each of the three tool entry points returns a
string and never raises: when the body fails with an exception, the
blanket handler converts it into a string beginning "Error in ...",
and when the body succeeds the same string channel carries the
formatted report, so the two are distinguishable only by text. -/
theorem string_error_channel (load : Except PyErr (List Row)) (p : String) :
    (∀ e, load = .error e →
      runSeason load p = "Error in seasonality analysis: " ++ e.msg ∧
      runTrend load p = "Error in trend analysis: " ++ e.msg ∧
      runClassify load p = "Error in product classification: " ++ e.msg) ∧
    (∀ e, seasonBody load p = .error e →
      runSeason load p = "Error in seasonality analysis: " ++ e.msg) ∧
    (∀ o, seasonBody load p = .ok o → runSeason load p = seasonFormat p o) ∧
    (∀ e, trendBody load p = .error e →
      runTrend load p = "Error in trend analysis: " ++ e.msg) ∧
    (∀ o, trendBody load p = .ok o → runTrend load p = trendFormat p o) ∧
    (∀ e, classifyBody load p = .error e →
      runClassify load p = "Error in product classification: " ++ e.msg) ∧
    (∀ o, classifyBody load p = .ok o → runClassify load p = classifyFormat p o) := by
  refine ⟨?_, ?_, ?_, ?_, ?_, ?_, ?_⟩
  · rintro e rfl
    exact ⟨rfl, rfl, rfl⟩
  · intro e he; rw [runSeason, he]
  · intro o ho; rw [runSeason, ho]
  · intro e he; rw [runTrend, he]
  · intro o ho; rw [runTrend, ho]
  · intro e he; rw [runClassify, he]
  · intro o ho; rw [runClassify, ho]

/-- Witness for C10: a failed load (the Python exception "boom")
surfaces through all three tools as "Error in ..." strings. -/
theorem string_error_channel_witness :
    runSeason (.error ⟨"boom"⟩) "X" = "Error in seasonality analysis: " ++ "boom" ∧
    runTrend (.error ⟨"boom"⟩) "X" = "Error in trend analysis: " ++ "boom" ∧
    runClassify (.error ⟨"boom"⟩) "X" = "Error in product classification: " ++ "boom" :=
  (string_error_channel (.error ⟨"boom"⟩) "X").1 ⟨"boom"⟩ rfl

/-- Witness for C8: a series of length 5, where the recent window
collapses to the overall fit exactly. -/
theorem recent_window_fit_witness :
    ([0, 1, 2, 3, 4] : List ℚ) ≠ [] ∧ ([0, 1, 2, 3, 4] : List ℚ).length < 12 ∧
    (∃ o, trendAnalyze ([0, 1, 2, 3, 4] : List ℚ) = .ok o ∧
      o.recent_slope = o.slope ∧ o.recent_r_squared = o.r_squared) := by
  refine ⟨by simp, by simp, ?_⟩
  obtain ⟨o, ho, _, hlt⟩ := recent_window_fit [0, 1, 2, 3, 4] (by simp)
  exact ⟨o, ho, hlt (by simp)⟩

/-- C1: for every (seasonality, trend) input pair — given here by the
regular numbers slope, r_squared r, seasonality score sc and the boolean
is_seasonal b — the classifier evaluates exactly the seven rules in the
fixed order 1..7 with first match winning: (1) slope > 0.5 and
r_squared > 0.5 gives RISING_STAR with confidence
min(0.95, r_squared + slope/2); (2) slope < -0.5 and r_squared > 0.5
gives FADING_OUT with confidence min(0.95, r_squared + |slope|/2);
(3) is_seasonal and |slope| < 0.3 gives SEASONAL_HERO with confidence
min(0.9, seasonality_score); (4) not is_seasonal and |slope| < 0.3 gives
EVERGREEN; (5) r_squared < 0.3 and not is_seasonal gives RANDOM_ERRATIC
with confidence 0.6; (6) is_seasonal and slope < -0.2 gives
DECLINING_SEASONAL with confidence min(0.85, seasonality_score +
|slope|/3); (7) otherwise STABLE with confidence 0.5. -/
theorem classifier_rule_order (slope r sc : ℚ) (b : Bool) :
    classifyCore slope (.num r) (.num sc) b =
      if slope > 1/2 ∧ r > 1/2 then
        (.RISING_STAR, .num (min (95/100) (r + slope / 2)))
      else if slope < -(1/2) ∧ r > 1/2 then
        (.FADING_OUT, .num (min (95/100) (r + |slope| / 2)))
      else if b = true ∧ |slope| < 3/10 then
        (.SEASONAL_HERO, .num (min (9/10) sc))
      else if b = false ∧ |slope| < 3/10 then
        (.EVERGREEN, .num (8/10 - sc))
      else if r < 3/10 ∧ b = false then
        (.RANDOM_ERRATIC, .num (6/10))
      else if b = true ∧ slope < -(2/10) then
        (.DECLINING_SEASONAL, .num (min (85/100) (sc + |slope| / 3)))
      else
        (.STABLE, .num (1/2)) := by
  simp only [classifyCore, fgtq, fltq, fadd_num, fsub_num, fminPy_num,
    Bool.and_eq_true, decide_eq_true_eq, Bool.not_eq_true']

/-- C2: for every valid input pair — seasonality score sc nonnegative,
r_squared r in the unit interval, is_seasonal b equivalent to
sc > 0.3 — the classifier is total and deterministic (it computes
exactly one category-confidence pair), the returned confidence lies in
the unit interval, and in the EVERGREEN branch the confidence equals
max(0, 0.8 - sc). -/
theorem classifier_confidence_bounds (slope r sc : ℚ) (b : Bool)
    (hsc : 0 ≤ sc) (hr0 : 0 ≤ r) (hr1 : r ≤ 1) (hb : b = true ↔ sc > 3/10) :
    ∃ c q, classifyCore slope (.num r) (.num sc) b = (c, .num q) ∧
      0 ≤ q ∧ q ≤ 1 ∧ (c = .EVERGREEN → q = max 0 (8/10 - sc)) := by
  rw [classifier_rule_order]
  split_ifs with g1 g2 g3 g4 g5 g6
  · refine ⟨_, _, rfl, ?_, ?_, by simp⟩
    · have : (0:ℚ) ≤ r + slope / 2 := by
        obtain ⟨h1, h2⟩ := g1; linarith
      simp only [le_min_iff]
      exact ⟨by norm_num, this⟩
    · exact le_trans (min_le_left _ _) (by norm_num)
  · refine ⟨_, _, rfl, ?_, ?_, by simp⟩
    · have habs : (0:ℚ) ≤ |slope| := abs_nonneg slope
      have : (0:ℚ) ≤ r + |slope| / 2 := by
        obtain ⟨h1, h2⟩ := g2; linarith
      simp only [le_min_iff]
      exact ⟨by norm_num, this⟩
    · exact le_trans (min_le_left _ _) (by norm_num)
  · refine ⟨_, _, rfl, ?_, ?_, by simp⟩
    · simp only [le_min_iff]
      exact ⟨by norm_num, hsc⟩
    · exact le_trans (min_le_left _ _) (by norm_num)
  · have hsmall : sc ≤ 3/10 := by
      by_contra hcon
      have := hb.mpr (lt_of_not_ge fun h => hcon (by linarith))
      simp [g4.1] at this
    refine ⟨_, _, rfl, by linarith, by linarith, ?_⟩
    intro _
    rw [max_eq_right (by linarith)]
  · exact ⟨_, _, rfl, by norm_num, by norm_num, by simp⟩
  · have hbig : sc > 3/10 := hb.mp g6.1
    refine ⟨_, _, rfl, ?_, ?_, by simp⟩
    · have habs : (0:ℚ) ≤ |slope| := abs_nonneg slope
      simp only [le_min_iff]
      exact ⟨by norm_num, by linarith⟩
    · exact le_trans (min_le_left _ _) (by norm_num)
  · exact ⟨_, _, rfl, by norm_num, by norm_num, by simp⟩

/-- Witness for C2: a concrete valid input (slope 0, r_squared 0,
seasonality score 0, not seasonal) on which the hypotheses hold and the
classifier lands in the EVERGREEN branch. -/
theorem classifier_confidence_bounds_witness :
    (0:ℚ) ≤ 0 ∧ (0:ℚ) ≤ 1 ∧
      (∃ c q, classifyCore 0 (.num 0) (.num 0) false = (c, .num q) ∧
        0 ≤ q ∧ q ≤ 1 ∧ (c = .EVERGREEN → q = max 0 (8/10 - 0))) :=
  ⟨le_refl 0, by norm_num,
    classifier_confidence_bounds 0 0 0 false (le_refl 0) (le_refl 0)
      (by norm_num) (by norm_num)⟩

end PIS
